import Mathlib

/-!
Verification of `atorch/trainer/atorch_args.py` (class `AtorchArguments`):
construction-time validation (`__post_init__`), JSON-safe serialization
(`to_dict`) and the lazily cached device setup (`_setup_devices`).

Python runtime values relevant to this module are modelled by `PyAtom`
(scalar values) and `PyVal` (a scalar, or a list/tuple of scalars).  The
sequence-valued fields of this dataclass hold classes and name strings
(`atorch_wrap_cls`, `atorch_checkpoint_cls`) or strings (`report_to`,
`excluded`, `included`), so container elements are scalar; deeper nesting
does not occur in this module's value space.  Enum members in scope
(scheduler types, interval strategies) are string-valued; an enum member
is modelled by its underlying string.  A callable (function or class) is
modelled by an optional `__name__` and a `str()` rendering.
-/

inductive PyAtom where
  | noneA : PyAtom
  | boolA : Bool → PyAtom
  | intA : Int → PyAtom
  | strA : String → PyAtom
  | enumA : String → PyAtom
  | callA : Option String → String → PyAtom
deriving DecidableEq, Repr

inductive PyVal where
  | noneV : PyVal
  | boolV : Bool → PyVal
  | intV : Int → PyVal
  | strV : String → PyVal
  | enumV : String → PyVal
  | callV : Option String → String → PyVal
  | listV : List PyAtom → PyVal
  | tupleV : List PyAtom → PyVal
deriving DecidableEq, Repr

/-- `isinstance(x, Enum)` for a container element. -/
def atomIsEnum : PyAtom → Bool
  | .enumA _ => true
  | _ => false

/-- `isinstance(x, Callable)` for a container element. -/
def atomIsCall : PyAtom → Bool
  | .callA _ _ => true
  | _ => false

/-- `isinstance(v, Enum)` -/
def isEnumV : PyVal → Bool
  | .enumV _ => true
  | _ => false

/-- `isinstance(v, Callable)`: the callable values of this module are
functions and classes. -/
def isCallV : PyVal → Bool
  | .callV _ _ => true
  | _ => false

/-- `isinstance(v, tuple)` -/
def isTupleV : PyVal → Bool
  | .tupleV _ => true
  | _ => false

/-- `isinstance(v, list)` -/
def isListV : PyVal → Bool
  | .listV _ => true
  | _ => false

/-- A value is "sequence-typed" in Python's sense
(`collections.abc.Sequence`) when it is a list, a tuple or a string. -/
def isSequenceTyped : PyVal → Bool
  | .listV _ => true
  | .tupleV _ => true
  | .strV _ => true
  | _ => false

/-- Python `str(x)` of a container element.  A callable renders as its
stored `str()` form, an enum member via its underlying value. -/
def atomStr : PyAtom → String
  | .noneA => "None"
  | .boolA true => "True"
  | .boolA false => "False"
  | .intA n => toString n
  | .strA s => s
  | .enumA s => s
  | .callA _ r => r

/-- Python `str(v)` for the modelled values (element quoting inside
container renderings is not modelled; no property here depends on it). -/
def pyStr : PyVal → String
  | .noneV => "None"
  | .boolV true => "True"
  | .boolV false => "False"
  | .intV n => toString n
  | .strV s => s
  | .enumV s => s
  | .callV _ r => r
  | .listV xs => "[" ++ String.intercalate ", " (xs.map atomStr) ++ "]"
  | .tupleV xs => "(" ++ String.intercalate ", " (xs.map atomStr) ++ ")"

/-- `type(v)`'s name.  The callables stored in the wrap/checkpoint tuples
are classes, whose type is `type`. -/
def pyTypeName : PyVal → String
  | .noneV => "NoneType"
  | .boolV _ => "bool"
  | .intV _ => "int"
  | .strV _ => "str"
  | .enumV _ => "Enum"
  | .callV _ _ => "type"
  | .listV _ => "list"
  | .tupleV _ => "tuple"

/-- The f-string rendering of `type(v)`, as in
`f"{type(self.atorch_wrap_cls)}"` (quote marks inside the rendering are
not modelled). -/
def pyTypeRepr (v : PyVal) : String := "<class " ++ pyTypeName v ++ ">"

/-- `true` when a container element is neither a raw enum member nor a raw
callable. -/
def cleanAtom : PyAtom → Bool
  | .enumA _ => false
  | .callA _ _ => false
  | _ => true

/-- `true` when a value contains no raw enum member and no raw callable at
any depth: only primitives, strings and containers of such. -/
def cleanVal : PyVal → Bool
  | .enumV _ => false
  | .callV _ _ => false
  | .listV xs => xs.all cleanAtom
  | .tupleV xs => xs.all cleanAtom
  | _ => true

/-- Modelled from the spec: the standard scheduler-name registry
(`SCHEDULER_NAMES` of `atorch.utils.trainer_utils`, which is outside this
repository slice): the base framework's scheduler names. -/
def SCHEDULER_NAMES : List String :=
  ["linear", "cosine", "cosine_with_restarts", "polynomial", "constant",
   "constant_with_warmup", "inverse_sqrt", "reduce_lr_on_plateau"]

/-- Modelled from the spec: the extended scheduler-name registry
(`ATORCHSCHEDULER_NAMES` of `atorch.utils.trainer_utils`, outside this
repository slice): the additional custom scheduler names, distinct from
the standard ones. -/
def ATORCHSCHEDULER_NAMES : List String := ["log_warmup_linear_decay"]

/-- The message used both for the informational log and for the error in
the `report_to` check. -/
def reportToMsg : String :=
  "AtorchTrainer only support TensorBoard to report the results and logs."

/-- Python list rendering of a name registry (element quoting not
modelled). -/
def renderNames (l : List String) : String :=
  "[" ++ String.intercalate ", " l ++ "]"

/-- Error message of the scheduler-type check (source lines 231-234). -/
def schedulerErrMsg (v : String) : String :=
  "lr_scheduler_type=" ++ v ++ " is invalid, please select one of " ++
    renderNames (SCHEDULER_NAMES ++ ATORCHSCHEDULER_NAMES) ++ "."

/-- Error message of the `atorch_wrap_cls` tuple-type check (line 237). -/
def wrapClsErrMsg (v : PyVal) : String :=
  "atorch_wrap_cls has " ++ pyTypeRepr v ++ " type, required tuple type."

/-- Error message of the `atorch_checkpoint_cls` tuple-type check
(line 240). -/
def checkpointClsErrMsg (v : PyVal) : String :=
  "atorch_checkpoint_cls has " ++ pyTypeRepr v ++ " type, required tuple type."

/-- The `report_to` check (source lines 223-227).  On success it returns
the informational log lines emitted. -/
def checkReportTo (v : PyVal) : Except String (List String) :=
  if v = PyVal.noneV then .ok []
  else if v = PyVal.strV "all" ∨ v = PyVal.listV [PyAtom.strA "all"] then
    .ok [reportToMsg]
  else if v ≠ PyVal.strV "tensorboard" ∧ v ≠ PyVal.listV [PyAtom.strA "tensorboard"] then
    .error reportToMsg
  else .ok []

/-- The scheduler-type check (source lines 230-234).  The field value is an
`AtorchSchedulerType` member or a string; the enum is string-valued and
compares equal to its underlying value, so the field is modelled as the
string. -/
def checkScheduler (v : Option String) : Except String Unit :=
  match v with
  | none => .ok ()
  | some s =>
    if s ∈ ATORCHSCHEDULER_NAMES then .ok ()
    else .error (schedulerErrMsg s)

/-- The `atorch_wrap_cls` check (source lines 236-237). -/
def checkWrapCls (v : PyVal) : Except String Unit :=
  if v ≠ PyVal.noneV ∧ ¬ isTupleV v then .error (wrapClsErrMsg v)
  else .ok ()

/-- The `atorch_checkpoint_cls` check (source lines 239-240). -/
def checkCheckpointCls (v : PyVal) : Except String Unit :=
  if v ≠ PyVal.noneV ∧ ¬ isTupleV v then .error (checkpointClsErrMsg v)
  else .ok ()

/-- The fields of `AtorchArguments` that the verified behaviors read.
`atorch_lr_scheduler_type` is `Option String` (see `checkScheduler`);
`ddp_timeout` (a base-class field, in seconds) is an integer; every
remaining init-field of the dataclass is carried uninterpreted in
`otherFields`. -/
structure AtorchArguments where
  report_to : PyVal := PyVal.noneV
  atorch_lr_scheduler_type : Option String := none
  atorch_wrap_cls : PyVal := PyVal.noneV
  atorch_checkpoint_cls : PyVal := PyVal.noneV
  ddp_timeout : Int := 1800
  ddp_backend : Option String := none
  otherFields : List (String × PyVal) := []
deriving DecidableEq

/-- `AtorchArguments.__post_init__` (source lines 221-242): the four checks
in source order.  The trailing delegation to the base class's
`__post_init__` is outside this repository slice and is not modelled; the
result is `.ok logs` (the informational log lines emitted) when every
check of this class passes. -/
def AtorchArguments.post_init (a : AtorchArguments) : Except String (List String) :=
  match checkReportTo a.report_to with
  | .error e => .error e
  | .ok logs =>
    match checkScheduler a.atorch_lr_scheduler_type with
    | .error e => .error e
    | .ok _ =>
      match checkWrapCls a.atorch_wrap_cls with
      | .error e => .error e
      | .ok _ =>
        match checkCheckpointCls a.atorch_checkpoint_cls with
        | .error e => .error e
        | .ok _ => .ok logs

/-- `true` exactly on `.error`. -/
def isErrorE {α : Type} : Except String α → Bool
  | .error _ => true
  | .ok _ => false

/-- Python `k.endswith(suffix)`, computed on the character list. -/
def strEndsWith (s suffix : String) : Bool := suffix.data.isSuffixOf s.data

/-- `x.value` of a container element when it is an enum member, the element
itself otherwise (used only to state what the enum-list transform
produces). -/
def enumValUnderlying : PyAtom → PyAtom
  | .enumA s => .strA s
  | a => a

/-- `[x.value for x in v]`: attribute access `x.value` raises
`AttributeError` on an element that is not an enum member. -/
def enumValues : List PyAtom → Except String (List PyAtom)
  | [] => .ok []
  | .enumA s :: xs =>
    match enumValues xs with
    | .ok t => .ok (.strA s :: t)
    | .error e => .error e
  | _ :: _ => .error "AttributeError"

/-- `x.__name__ if hasattr(x, "__name__") else str(x)` for a container
element. -/
def atomNameOrStr : PyAtom → PyAtom
  | .callA (some n) _ => .strA n
  | a => .strA (atomStr a)

/-- `v.__name__ if hasattr(v, "__name__") else str(v)` for a top-level
value. -/
def valNameOrStr : PyVal → PyVal
  | .callV (some n) _ => .strV n
  | v => .strV (pyStr v)

/-- The per-field body of the `for k, v in d.items()` loop of `to_dict`
(source lines 208-218): a callable is replaced by its name (or `str`
rendering); a nonempty list whose first element is an enum member has
every element replaced by `x.value` (an `AttributeError` surfaces if a
later element is not an enum member); a nonempty list whose first element
is a callable has every element replaced by its name/`str` rendering; a
nonempty tuple whose first element is a callable likewise, rebuilt as a
tuple; every other value is left unchanged. -/
def transformValue (v : PyVal) : Except String PyVal :=
  if isCallV v then .ok (valNameOrStr v)
  else match v with
    | .listV (x :: xs) =>
      if atomIsEnum x then
        match enumValues (x :: xs) with
        | .ok ys => .ok (.listV ys)
        | .error e => .error e
      else if atomIsCall x then .ok (.listV ((x :: xs).map atomNameOrStr))
      else .ok (.listV (x :: xs))
    | .tupleV (x :: xs) =>
      if atomIsCall x then .ok (.tupleV ((x :: xs).map atomNameOrStr))
      else .ok (.tupleV (x :: xs))
    | w => .ok w

/-- Modelled from the spec: the per-field value transform of the base
record's own serialization (`super().to_dict()` of the base
training-argument class, outside this repository slice), which is applied
first: an enum member is replaced by its underlying value, and so is each
element of a nonempty list whose first element is an enum member. -/
def baseValTransform (v : PyVal) : Except String PyVal :=
  match v with
  | .enumV s => .ok (.strV s)
  | .listV (x :: xs) =>
    if atomIsEnum x then
      match enumValues (x :: xs) with
      | .ok ys => .ok (.listV ys)
      | .error e => .error e
    else .ok (.listV (x :: xs))
  | w => .ok w

/-- Modelled from the spec: one field of the base record's serialization:
the value transform `baseValTransform` followed by secret/token redaction
(a field whose name ends in `_token` is obfuscated to `<NAME>`). -/
def baseKV (k : String) (v : PyVal) : Except String PyVal :=
  match baseValTransform v with
  | .ok w => .ok (if strEndsWith k "_token" then .strV ("<" ++ k.toUpper ++ ">") else w)
  | .error e => .error e

/-- Apply a per-field transform to every entry of a field mapping,
propagating the first raised error (the iteration order of the Python
dict is its insertion order). -/
def mapKVsM (f : String → PyVal → Except String PyVal) :
    List (String × PyVal) → Except String (List (String × PyVal))
  | [] => .ok []
  | (k, v) :: rest =>
    match f k v with
    | .error e => .error e
    | .ok w =>
      match mapKVsM f rest with
      | .error e => .error e
      | .ok tail => .ok ((k, w) :: tail)

/-- The init-field mapping of an instance, as iterated by `to_dict`.  The
structurally modelled fields come first; the uninterpreted rest of the
dataclass's init fields follow. -/
def AtorchArguments.fieldsOf (a : AtorchArguments) : List (String × PyVal) :=
  ("report_to", a.report_to) ::
  ("atorch_lr_scheduler_type",
    (match a.atorch_lr_scheduler_type with
     | some s => PyVal.strV s
     | none => PyVal.noneV)) ::
  ("atorch_wrap_cls", a.atorch_wrap_cls) ::
  ("atorch_checkpoint_cls", a.atorch_checkpoint_cls) ::
  ("ddp_timeout", PyVal.intV a.ddp_timeout) ::
  a.otherFields

/-- `super().to_dict()` applied to the instance's init fields (modelled
from the spec, see `baseKV`). -/
def base_to_dict (a : AtorchArguments) : Except String (List (String × PyVal)) :=
  mapKVsM baseKV a.fieldsOf

/-- `AtorchArguments.to_dict` (source lines 201-219): the base mapping
first, then the loop replacing callables and callable-led or enum-led
sequences per `transformValue`. -/
def AtorchArguments.to_dict (a : AtorchArguments) : Except String (List (String × PyVal)) :=
  match base_to_dict a with
  | .error e => .error e
  | .ok d => mapKVsM (fun _ v => transformValue v) d

/-- Field values on which the serialization pipeline is guaranteed to
produce only primitives/strings: any scalar, an all-enum list, a
callable-led sequence, or a sequence already free of raw enum members and
callables. -/
def goodVal : PyVal → Bool
  | .listV (x :: xs) =>
    (x :: xs).all atomIsEnum || atomIsCall x || (x :: xs).all cleanAtom
  | .tupleV (x :: xs) => atomIsCall x || (x :: xs).all cleanAtom
  | _ => true

/-- Field values as they emerge from the base serialization pass of a
`goodVal` input: a callable, a callable-led sequence, or a value already
free of raw enum members and callables. -/
def goodVal2 : PyVal → Bool
  | .callV _ _ => true
  | .listV (x :: xs) => atomIsCall x || (x :: xs).all cleanAtom
  | .tupleV (x :: xs) => atomIsCall x || (x :: xs).all cleanAtom
  | v => cleanVal v

/-- `torch.device`: a device kind and index. -/
structure TorchDevice where
  kind : String
  index : Int
deriving DecidableEq, Repr

/-- The fields of `accelerate`'s `PartialState` that `_setup_devices`
writes (source lines 189-194). -/
structure DistributedStateM where
  distributed_type : String
  num_processes : Nat
  process_index : Nat
  local_process_index : Int
  device : TorchDevice
deriving DecidableEq, Repr

/-- The process-wide distributed/accelerator runtime visible to
`_setup_devices`: whether a process group is active, the record of
process-group initializations (backend, timeout in seconds; most recent
first), world size, global rank, the number of device-binding calls
(`torch.cuda.set_device`) and the currently bound device. -/
structure TorchState where
  distInitialized : Bool
  initCalls : List (String × Int)
  worldSize : Nat
  rank : Nat
  setDeviceCalls : Nat
  currentCudaDevice : Option TorchDevice
deriving DecidableEq

/-- Modelled from the spec: `atorch.init_distributed(backend, timeout)`
(outside this repository slice) performs the blocking process-group
initialization with the given backend and timeout. -/
def init_distributed (backend : String) (timeoutSec : Int) (ts : TorchState) : TorchState :=
  { ts with distInitialized := true, initCalls := (backend, timeoutSec) :: ts.initCalls }

/-- Python `int(s)` on the modelled environment strings (parse failure
raises in Python; no verified property depends on it). -/
def parsePyInt (s : String) : Int := (s.toInt?).getD 0

/-- The body of `_setup_devices` (source lines 180-199): when no process
group is active, initialize one with the backend from the
`TORCH_DISTRIBUTED_BACKEND` environment override (default `"nccl"`) and a
timeout of `ddp_timeout` seconds (`timedelta(seconds=x)` is modelled as
the integer `x`); populate the distributed state (multi-GPU mode, world
size, global rank, local rank from `LOCAL_RANK` with default `-1`); bind
the cuda device of the local rank and return it. -/
def setupDevicesBody (env : String → Option String) (a : AtorchArguments)
    (ts : TorchState) : TorchDevice × DistributedStateM × TorchState :=
  let ts1 :=
    if ts.distInitialized then ts
    else init_distributed ((env "TORCH_DISTRIBUTED_BACKEND").getD "nccl") a.ddp_timeout ts
  let localRank : Int :=
    match env "LOCAL_RANK" with
    | some s => parsePyInt s
    | none => -1
  let dstate : DistributedStateM :=
    { distributed_type := "MULTI_GPU"
      num_processes := ts1.worldSize
      process_index := ts1.rank
      local_process_index := localRank
      device := { kind := "cuda", index := localRank } }
  let dev := dstate.device
  let ts2 := { ts1 with
    setDeviceCalls := ts1.setDeviceCalls + 1
    currentCudaDevice := some dev }
  (dev, dstate, ts2)

/-- The runtime attribute state of one instance: its init fields plus the
attributes written outside `__init__` (`_setup_devices` writes
`distributed_state` and `_n_gpu`; the caching wrapper stores the computed
device on the instance). -/
structure ArgsRuntime where
  args : AtorchArguments
  cachedSetupDevices : Option TorchDevice := none
  distributed_state : Option DistributedStateM := none
  n_gpu : Option Nat := none
deriving DecidableEq

/-- `_setup_devices` as accessed through its caching wrapper.  Modelled
from the spec: the `cached_property` wrapper (`transformers.utils`,
outside this repository slice) computes the body once, stores the result
on the instance and returns the stored value on every later access
without re-running the body. -/
def setup_devices (env : String → Option String) (r : ArgsRuntime)
    (ts : TorchState) : TorchDevice × ArgsRuntime × TorchState :=
  match r.cachedSetupDevices with
  | some d => (d, r, ts)
  | none =>
    let (d, ds, ts2) := setupDevicesBody env r.args ts
    (d, { r with cachedSetupDevices := some d,
                 distributed_state := some ds,
                 n_gpu := some 1 }, ts2)

/-- `to_dict` as the method acts on the instance state: every assignment in
its source writes the local dict `d` (lines 207-218), never `self`, so the
instance state is returned unchanged alongside the produced mapping. -/
def AtorchArguments.to_dict_method (r : ArgsRuntime) :
    Except String (List (String × PyVal)) × ArgsRuntime :=
  (r.args.to_dict, r)

/-- `n` occurs as a contiguous substring of `h`. -/
def strContains (h n : String) : Prop := ∃ p q : String, h = p ++ n ++ q

/-- An instance whose init fields are the defaults of the modelled slice
except for a single extra field `k` with value `v`. -/
def singleField (k : String) (v : PyVal) : AtorchArguments :=
  { otherFields := [(k, v)] }

/-- What `to_dict` produces for the five structurally modelled fields when
they hold their defaults. -/
def defaultHeadOut : List (String × PyVal) :=
  [("report_to", PyVal.noneV),
   ("atorch_lr_scheduler_type", PyVal.noneV),
   ("atorch_wrap_cls", PyVal.noneV),
   ("atorch_checkpoint_cls", PyVal.noneV),
   ("ddp_timeout", PyVal.intV 1800)]

/-- A configuration with a tuple-valued field whose first element is a name
string and whose second element is a class: the tuple branch of `to_dict`
requires a callable first element, so the raw class survives
serialization. -/
def cfgMixedTuple : AtorchArguments :=
  { atorch_wrap_cls := PyVal.tupleV [PyAtom.strA "A", PyAtom.callA (some "F") "<class F>"] }

/-- A configuration with an enum-led tuple-valued field: neither the base
pass (lists only) nor the tuple branch (callables only) touches it. -/
def cfgEnumTuple : AtorchArguments :=
  { otherFields := [("strategies", PyVal.tupleV [PyAtom.enumA "steps"])] }

/-- A well-behaved configuration: a class tuple, a callable field and an
enum-valued field. -/
def cfgGood : AtorchArguments :=
  { atorch_wrap_cls := PyVal.tupleV [PyAtom.callA (some "Block") "<class Block>"],
    otherFields := [("optim_func", PyVal.callV (some "AdamW") "<class AdamW>"),
                    ("evaluation_strategy", PyVal.enumV "steps"),
                    ("lr_scheduler_type", PyVal.listV [PyAtom.enumA "linear"])] }

/-- Claim C1 (counterexample): `"linear"` lies inside the combined registry
`SCHEDULER_NAMES + ATORCHSCHEDULER_NAMES`, yet constructing an instance
with `atorch_lr_scheduler_type = "linear"` fails: the check on source line
230 tests membership in `ATORCHSCHEDULER_NAMES` alone, not in the combined
registry its error message advertises. -/
theorem scheduler_combined_registry_counterexample :
    "linear" ∈ SCHEDULER_NAMES ++ ATORCHSCHEDULER_NAMES ∧
    isErrorE (AtorchArguments.post_init { atorch_lr_scheduler_type := some "linear" }) = true := by
  exact ⟨by decide, rfl⟩

/-- Claim C1 (amended): construction with `atorch_lr_scheduler_type` set
fails exactly when the value lies outside the extended registry
`ATORCHSCHEDULER_NAMES`; when it fails, the error message contains the
offending value and the full combined set
`SCHEDULER_NAMES + ATORCHSCHEDULER_NAMES`. -/
theorem scheduler_check_accepts_extended_registry_only (s : String) :
    (AtorchArguments.post_init { atorch_lr_scheduler_type := some s } =
      if s ∈ ATORCHSCHEDULER_NAMES then .ok [] else .error (schedulerErrMsg s)) ∧
    (s ∉ ATORCHSCHEDULER_NAMES →
      strContains (schedulerErrMsg s) s ∧
      strContains (schedulerErrMsg s)
        (renderNames (SCHEDULER_NAMES ++ ATORCHSCHEDULER_NAMES))) := by
  constructor
  · unfold AtorchArguments.post_init checkReportTo checkScheduler checkWrapCls checkCheckpointCls
    by_cases h : s ∈ ATORCHSCHEDULER_NAMES <;> simp [h]
  · intro _
    constructor
    · exact ⟨"lr_scheduler_type=",
        " is invalid, please select one of " ++
          renderNames (SCHEDULER_NAMES ++ ATORCHSCHEDULER_NAMES) ++ ".",
        by simp [schedulerErrMsg, String.append_assoc]⟩
    · exact ⟨"lr_scheduler_type=" ++ s ++ " is invalid, please select one of ", ".",
        by simp [schedulerErrMsg, String.append_assoc]⟩

/-- Claim C1 (witness): the amended theorem at the concrete name
`"bogus_scheduler"`. -/
theorem scheduler_check_accepts_extended_registry_only_witness :
    (AtorchArguments.post_init { atorch_lr_scheduler_type := some "bogus_scheduler" } =
      .error (schedulerErrMsg "bogus_scheduler")) ∧
    strContains (schedulerErrMsg "bogus_scheduler") "bogus_scheduler" := by
  have h := scheduler_check_accepts_extended_registry_only "bogus_scheduler"
  refine ⟨?_, (h.2 (by decide)).1⟩
  have h1 := h.1
  rw [if_neg (by decide)] at h1
  exact h1

/-- Claim C3 (counterexample): a list is sequence-typed, yet construction
with `atorch_wrap_cls` holding a list fails: the check on source line 236
requires the `tuple` type exactly, not sequence-typedness. -/
theorem wrap_cls_list_rejected_counterexample :
    isSequenceTyped (PyVal.listV [PyAtom.strA "SomeClass"]) = true ∧
    isErrorE (AtorchArguments.post_init
      { atorch_wrap_cls := PyVal.listV [PyAtom.strA "SomeClass"] }) = true :=
  ⟨rfl, rfl⟩

/-- Claim C3 (amended): if `atorch_wrap_cls` (respectively
`atorch_checkpoint_cls`) is set, construction fails if and only if the
value is not a tuple, the error message names the actual type of the
value received, and construction succeeds for every tuple value. -/
theorem wrap_checkpoint_cls_require_tuple (v : PyVal) (hv : v ≠ PyVal.noneV) :
    (AtorchArguments.post_init { atorch_wrap_cls := v } =
      if isTupleV v then .ok [] else .error (wrapClsErrMsg v)) ∧
    (AtorchArguments.post_init { atorch_checkpoint_cls := v } =
      if isTupleV v then .ok [] else .error (checkpointClsErrMsg v)) ∧
    strContains (wrapClsErrMsg v) (pyTypeName v) ∧
    strContains (checkpointClsErrMsg v) (pyTypeName v) := by
  refine ⟨?_, ?_, ?_, ?_⟩
  · unfold AtorchArguments.post_init checkReportTo checkScheduler checkWrapCls checkCheckpointCls
    by_cases h : isTupleV v <;> simp [h, hv]
  · unfold AtorchArguments.post_init checkReportTo checkScheduler checkWrapCls checkCheckpointCls
    by_cases h : isTupleV v <;> simp [h, hv]
  · refine ⟨"atorch_wrap_cls has <class ", "> type, required tuple type.", ?_⟩
    simp only [wrapClsErrMsg, pyTypeRepr, String.append_assoc]
    rw [← String.append_assoc]
    rfl
  · refine ⟨"atorch_checkpoint_cls has <class ", "> type, required tuple type.", ?_⟩
    simp only [checkpointClsErrMsg, pyTypeRepr, String.append_assoc]
    rw [← String.append_assoc]
    rfl

/-- Claim C3 (witness): the amended theorem at a bare class value for
`atorch_checkpoint_cls` (the spec's `SomeClass` example: the type of a
class is `type`, which the message names). -/
theorem wrap_checkpoint_cls_require_tuple_witness :
    (AtorchArguments.post_init
      { atorch_checkpoint_cls := PyVal.callV (some "SomeClass") "<class SomeClass>" } =
      .error (checkpointClsErrMsg (PyVal.callV (some "SomeClass") "<class SomeClass>"))) ∧
    strContains (checkpointClsErrMsg (PyVal.callV (some "SomeClass") "<class SomeClass>")) "type" := by
  have h := wrap_checkpoint_cls_require_tuple
    (PyVal.callV (some "SomeClass") "<class SomeClass>") (by decide)
  exact ⟨by simpa using h.2.1, h.2.2.2⟩

/-- Claim C4: `report_to` of `"tensorboard"` or `["tensorboard"]` passes
silently (no log line); `"all"` or `["all"]` passes with the informational
log line; `None` skips the check; every other value fails construction. -/
theorem report_to_check_spec :
    (AtorchArguments.post_init { report_to := PyVal.strV "tensorboard" } = .ok []) ∧
    (AtorchArguments.post_init { report_to := PyVal.listV [PyAtom.strA "tensorboard"] } = .ok []) ∧
    (AtorchArguments.post_init { report_to := PyVal.strV "all" } = .ok [reportToMsg]) ∧
    (AtorchArguments.post_init { report_to := PyVal.listV [PyAtom.strA "all"] } = .ok [reportToMsg]) ∧
    (AtorchArguments.post_init { report_to := PyVal.noneV } = .ok []) ∧
    (∀ v : PyVal, v ≠ PyVal.noneV → v ≠ PyVal.strV "all" →
      v ≠ PyVal.listV [PyAtom.strA "all"] → v ≠ PyVal.strV "tensorboard" →
      v ≠ PyVal.listV [PyAtom.strA "tensorboard"] →
      AtorchArguments.post_init { report_to := v } = .error reportToMsg) := by
  refine ⟨rfl, rfl, rfl, rfl, rfl, ?_⟩
  intro v h1 h2 h3 h4 h5
  unfold AtorchArguments.post_init checkReportTo
  rw [if_neg h1, if_neg (by exact not_or.mpr ⟨h2, h3⟩), if_pos ⟨h4, h5⟩]

/-- Claim C4 (witness): the failing branch at the concrete value
`"wandb"`. -/
theorem report_to_check_spec_witness :
    AtorchArguments.post_init { report_to := PyVal.strV "wandb" } = .error reportToMsg :=
  report_to_check_spec.2.2.2.2.2 (PyVal.strV "wandb")
    (by decide) (by decide) (by decide) (by decide) (by decide)

/-- Claim C10: the tuple checks on `atorch_wrap_cls` and
`atorch_checkpoint_cls` inspect only the container type: construction
passes for every pair of tuple values, including empty tuples and tuples
whose elements are neither classes nor name strings. -/
theorem tuple_check_ignores_elements (xs ys : List PyAtom) :
    AtorchArguments.post_init
      { atorch_wrap_cls := PyVal.tupleV xs, atorch_checkpoint_cls := PyVal.tupleV ys } = .ok [] := by
  unfold AtorchArguments.post_init checkReportTo checkScheduler checkWrapCls checkCheckpointCls
  simp [isTupleV]

/-- Lifting a per-field transform over the field mapping: if the transform
succeeds on every value satisfying `P` and produces values satisfying `Q`,
the whole pass succeeds, preserves keys and produces values satisfying
`Q`. -/
theorem mapKVsM_all_ok (f : String → PyVal → Except String PyVal)
    (P Q : PyVal → Bool)
    (hf : ∀ k v, P v = true → ∃ w, f k v = .ok w ∧ Q w = true) :
    ∀ l : List (String × PyVal), (l.all fun kv => P kv.2) = true →
      ∃ d, mapKVsM f l = .ok d ∧ (d.all fun kv => Q kv.2) = true := by
  intro l
  induction l with
  | nil => exact fun _ => ⟨[], rfl, rfl⟩
  | cons kv rest ih =>
    obtain ⟨k, v⟩ := kv
    intro h
    rw [List.all_cons, Bool.and_eq_true] at h
    obtain ⟨w, hw, hQ⟩ := hf k v h.1
    obtain ⟨d, hd, hdQ⟩ := ih h.2
    exact ⟨(k, w) :: d, by simp [mapKVsM, hw, hd],
      by simp [List.all_cons, hQ, hdQ]⟩

/-- On an all-enum element list, `[x.value for x in v]` succeeds and maps
every element to its underlying value. -/
theorem enumValues_all_enum :
    ∀ xs : List PyAtom, xs.all atomIsEnum = true →
      enumValues xs = .ok (xs.map enumValUnderlying) := by
  intro xs
  induction xs with
  | nil => exact fun _ => rfl
  | cons x rest ih =>
    intro h
    rw [List.all_cons, Bool.and_eq_true] at h
    cases x with
    | enumA s => simp [enumValues, ih h.2, enumValUnderlying]
    | noneA => simp [atomIsEnum] at h
    | boolA b => simp [atomIsEnum] at h
    | intA n => simp [atomIsEnum] at h
    | strA s => simp [atomIsEnum] at h
    | callA n r => simp [atomIsEnum] at h

/-- The name-or-`str` fallback always yields a string element. -/
theorem cleanAtom_atomNameOrStr (a : PyAtom) : cleanAtom (atomNameOrStr a) = true := by
  cases a <;> try rfl
  case callA n r => cases n <;> rfl

/-- Element lists rewritten by the name-or-`str` fallback are free of raw
enums and callables. -/
theorem cleanList_map_atomNameOrStr (l : List PyAtom) :
    ((l.map atomNameOrStr).all cleanAtom) = true := by
  induction l with
  | nil => rfl
  | cons x rest ih => simp [List.all_cons, cleanAtom_atomNameOrStr, ih]

/-- The underlying value of an enum element is a string element. -/
theorem cleanAtom_enumValUnderlying (a : PyAtom) (h : atomIsEnum a = true) :
    cleanAtom (enumValUnderlying a) = true := by
  cases a <;> simp_all [atomIsEnum, enumValUnderlying, cleanAtom]

/-- Element lists produced from all-enum lists by the value transform are
free of raw enums and callables. -/
theorem cleanList_map_enumValUnderlying (l : List PyAtom)
    (h : l.all atomIsEnum = true) :
    ((l.map enumValUnderlying).all cleanAtom) = true := by
  induction l with
  | nil => rfl
  | cons x rest ih =>
    rw [List.all_cons, Bool.and_eq_true] at h
    simp [List.all_cons, cleanAtom_enumValUnderlying x h.1, ih h.2]

/-- A list value of clean elements satisfies `goodVal2`. -/
theorem goodVal2_listV_of_clean (ys : List PyAtom) (h : ys.all cleanAtom = true) :
    goodVal2 (PyVal.listV ys) = true := by
  cases ys with
  | nil => rfl
  | cons y rest => simp [goodVal2, h]

/-- A clean element is neither an enum member nor a callable. -/
theorem cleanAtom_shape (x : PyAtom) (h : cleanAtom x = true) :
    atomIsEnum x = false ∧ atomIsCall x = false := by
  cases x <;> simp_all [cleanAtom, atomIsEnum, atomIsCall]

/-- The per-field loop body of `to_dict` succeeds on every `goodVal2`
input and produces a value free of raw enums and callables. -/
theorem transformValue_good (v : PyVal) (h : goodVal2 v = true) :
    ∃ w, transformValue v = .ok w ∧ cleanVal w = true := by
  cases v with
  | noneV => exact ⟨_, rfl, rfl⟩
  | boolV b => exact ⟨_, rfl, rfl⟩
  | intV n => exact ⟨_, rfl, rfl⟩
  | strV s => exact ⟨_, rfl, rfl⟩
  | enumV s => simp [goodVal2, cleanVal] at h
  | callV n r =>
    refine ⟨valNameOrStr (.callV n r), rfl, ?_⟩
    cases n <;> rfl
  | listV xs =>
    cases xs with
    | nil => exact ⟨_, rfl, rfl⟩
    | cons x rest =>
      rw [goodVal2, Bool.or_eq_true] at h
      cases h with
      | inl hcall =>
        have he : atomIsEnum x = false := by
          cases x <;> simp_all [atomIsCall, atomIsEnum]
        refine ⟨.listV ((x :: rest).map atomNameOrStr), ?_, ?_⟩
        · simp [transformValue, isCallV, he, hcall]
        · simpa [cleanVal] using cleanList_map_atomNameOrStr (x :: rest)
      | inr hclean =>
        have hx : cleanAtom x = true := by
          rw [List.all_cons, Bool.and_eq_true] at hclean; exact hclean.1
        obtain ⟨he, hc⟩ := cleanAtom_shape x hx
        refine ⟨.listV (x :: rest), ?_, ?_⟩
        · simp [transformValue, isCallV, he, hc]
        · simpa [cleanVal] using hclean
  | tupleV xs =>
    cases xs with
    | nil => exact ⟨_, rfl, rfl⟩
    | cons x rest =>
      rw [goodVal2, Bool.or_eq_true] at h
      cases h with
      | inl hcall =>
        refine ⟨.tupleV ((x :: rest).map atomNameOrStr), ?_, ?_⟩
        · simp [transformValue, isCallV, hcall]
        · simpa [cleanVal] using cleanList_map_atomNameOrStr (x :: rest)
      | inr hclean =>
        obtain ⟨he, hc⟩ := cleanAtom_shape x (by
          rw [List.all_cons, Bool.and_eq_true] at hclean; exact hclean.1)
        refine ⟨.tupleV (x :: rest), ?_, ?_⟩
        · simp [transformValue, isCallV, hc]
        · simpa [cleanVal] using hclean

/-- The base serialization pass succeeds on every `goodVal` input and
produces a `goodVal2` value. -/
theorem baseKV_good (k : String) (v : PyVal) (h : goodVal v = true) :
    ∃ w, baseKV k v = .ok w ∧ goodVal2 w = true := by
  have main : ∃ w, baseValTransform v = .ok w ∧ goodVal2 w = true := by
    cases v with
    | noneV => exact ⟨_, rfl, rfl⟩
    | boolV b => exact ⟨_, rfl, rfl⟩
    | intV n => exact ⟨_, rfl, rfl⟩
    | strV s => exact ⟨_, rfl, rfl⟩
    | enumV s => exact ⟨.strV s, rfl, rfl⟩
    | callV n r => exact ⟨_, rfl, rfl⟩
    | listV xs =>
      cases xs with
      | nil => exact ⟨_, rfl, rfl⟩
      | cons x rest =>
        rw [goodVal, Bool.or_eq_true, Bool.or_eq_true] at h
        by_cases he : atomIsEnum x = true
        · have hall : (x :: rest).all atomIsEnum = true := by
            rcases h with (h | h) | h
            · exact h
            · cases x <;> simp_all [atomIsCall, atomIsEnum]
            · rw [List.all_cons, Bool.and_eq_true] at h
              cases x <;> simp_all [cleanAtom, atomIsEnum]
          refine ⟨.listV ((x :: rest).map enumValUnderlying), ?_, ?_⟩
          · simp [baseValTransform, he, enumValues_all_enum _ hall]
          · exact goodVal2_listV_of_clean _ (cleanList_map_enumValUnderlying _ hall)
        · have he' : atomIsEnum x = false := by simpa using he
          refine ⟨.listV (x :: rest), ?_, ?_⟩
          · simp [baseValTransform, he']
          · rcases h with (h | h) | h
            · rw [List.all_cons, Bool.and_eq_true] at h
              simp_all
            · simp [goodVal2, h]
            · simp [goodVal2, h]
    | tupleV xs =>
      cases xs with
      | nil => exact ⟨_, rfl, rfl⟩
      | cons x rest =>
        rw [goodVal] at h
        exact ⟨.tupleV (x :: rest), rfl, by rw [goodVal2]; exact h⟩
  obtain ⟨w, hw, hQ⟩ := main
  by_cases hk : strEndsWith k "_token" = true
  · exact ⟨.strV ("<" ++ k.toUpper ++ ">"), by simp [baseKV, hw, hk], rfl⟩
  · have hk' : strEndsWith k "_token" = false := by simpa using hk
    exact ⟨w, by simp [baseKV, hw, hk'], hQ⟩

/-- Claim C2 (counterexample): a configuration with `atorch_wrap_cls` set
to the tuple `("A", F)` — first element a name string, second a class:
`to_dict` returns the tuple unchanged, so its result contains a raw
callable inside a value, contradicting the claimed guarantee.  (The tuple
branch of the loop, source line 216, only fires when the FIRST element is
callable.) -/
theorem to_dict_raw_callable_in_tuple_counterexample :
    cfgMixedTuple.to_dict = .ok
      [("report_to", PyVal.noneV),
       ("atorch_lr_scheduler_type", PyVal.noneV),
       ("atorch_wrap_cls", PyVal.tupleV [PyAtom.strA "A", PyAtom.callA (some "F") "<class F>"]),
       ("atorch_checkpoint_cls", PyVal.noneV),
       ("ddp_timeout", PyVal.intV 1800)] ∧
    cleanVal (PyVal.tupleV [PyAtom.strA "A", PyAtom.callA (some "F") "<class F>"]) = false :=
  ⟨rfl, rfl⟩

/-- Claim C2 (amended): for every configuration in which each raw enum or
callable occurs either at top level, in an all-enum list, or in a sequence
whose FIRST element is callable (`goodVal`), `to_dict` succeeds and its
result contains no raw enum member and no raw callable anywhere; a
sequence led by a non-callable, non-enum element passes through unchanged
and may retain raw elements. -/
theorem to_dict_clean_on_wellshaped_fields (a : AtorchArguments)
    (h : (a.fieldsOf.all fun kv => goodVal kv.2) = true) :
    ∃ d, a.to_dict = .ok d ∧ (d.all fun kv => cleanVal kv.2) = true := by
  obtain ⟨d1, hd1, h1⟩ := mapKVsM_all_ok baseKV goodVal goodVal2 baseKV_good a.fieldsOf h
  obtain ⟨d2, hd2, h2⟩ := mapKVsM_all_ok (fun _ v => transformValue v) goodVal2 cleanVal
    (fun _ v hv => transformValue_good v hv) d1 h1
  exact ⟨d2, by simp [AtorchArguments.to_dict, base_to_dict, hd1, hd2], h2⟩

/-- Claim C2 (witness): the amended theorem at a concrete configuration
with a class tuple, a callable field, an enum field and an enum list. -/
theorem to_dict_clean_on_wellshaped_fields_witness :
    ∃ d, cfgGood.to_dict = .ok d ∧ (d.all fun kv => cleanVal kv.2) = true :=
  to_dict_clean_on_wellshaped_fields cfgGood (by decide)

/-- `to_dict` of a configuration holding the modelled defaults plus one
extra field `k ↦ v` (with `k` not a token field): the head fields pass
through to `defaultHeadOut` and `v` goes through the base pass and then
the loop body. -/
theorem to_dict_single (k : String) (hk : strEndsWith k "_token" = false)
    (v w1 w2 : PyVal) (h1 : baseValTransform v = .ok w1)
    (h2 : transformValue w1 = .ok w2) :
    (singleField k v).to_dict = .ok (defaultHeadOut ++ [(k, w2)]) := by
  have t1 : strEndsWith "report_to" "_token" = false := rfl
  have t2 : strEndsWith "atorch_lr_scheduler_type" "_token" = false := rfl
  have t3 : strEndsWith "atorch_wrap_cls" "_token" = false := rfl
  have t4 : strEndsWith "atorch_checkpoint_cls" "_token" = false := rfl
  have t5 : strEndsWith "ddp_timeout" "_token" = false := rfl
  have b1 : baseValTransform PyVal.noneV = .ok PyVal.noneV := rfl
  have b2 : baseValTransform (PyVal.intV 1800) = .ok (PyVal.intV 1800) := rfl
  have c1 : transformValue PyVal.noneV = .ok PyVal.noneV := rfl
  have c2 : transformValue (PyVal.intV 1800) = .ok (PyVal.intV 1800) := rfl
  simp [AtorchArguments.to_dict, base_to_dict, AtorchArguments.fieldsOf, singleField,
        mapKVsM, baseKV, defaultHeadOut,
        hk, h1, h2, t1, t2, t3, t4, t5, b1, b2, c1, c2]

/-- Claim C6 (counterexample): a field holding the tuple `(E,)` with `E` an
enum member is a sequence whose first element is an enumerated value, yet
`to_dict` returns it unchanged — its elements are not mapped to their
underlying primitive values (source line 216 handles tuples only when the
first element is callable, and the list branches do not apply). -/
theorem enum_tuple_unconverted_counterexample :
    cfgEnumTuple.to_dict =
      .ok (defaultHeadOut ++ [("strategies", PyVal.tupleV [PyAtom.enumA "steps"])]) ∧
    PyVal.tupleV [PyAtom.enumA "steps"] ≠ PyVal.tupleV [PyAtom.strA "steps"] :=
  ⟨rfl, by decide⟩

/-- Claim C6 (amended): for a field holding a LIST with an enum first
element (all elements enums), `to_dict` maps each element to its
underlying primitive value; for a field holding a list or tuple with a
callable first element, `to_dict` maps each element to its declared name
(or `str` rendering) and preserves the sequence kind — a list stays a
list, a tuple stays a tuple.  An enum-led TUPLE, by contrast, passes
through unchanged (see the counterexample). -/
theorem sequence_transform_spec (k : String) (hk : strEndsWith k "_token" = false) :
    (∀ xs : List PyAtom, xs ≠ [] → xs.all atomIsEnum = true →
      (singleField k (PyVal.listV xs)).to_dict =
        .ok (defaultHeadOut ++ [(k, PyVal.listV (xs.map enumValUnderlying))])) ∧
    (∀ (x : PyAtom) (rest : List PyAtom), atomIsCall x = true →
      (singleField k (PyVal.listV (x :: rest))).to_dict =
        .ok (defaultHeadOut ++ [(k, PyVal.listV ((x :: rest).map atomNameOrStr))])) ∧
    (∀ (x : PyAtom) (rest : List PyAtom), atomIsCall x = true →
      (singleField k (PyVal.tupleV (x :: rest))).to_dict =
        .ok (defaultHeadOut ++ [(k, PyVal.tupleV ((x :: rest).map atomNameOrStr))])) := by
  refine ⟨?_, ?_, ?_⟩
  · intro xs hne hall
    cases xs with
    | nil => exact absurd rfl hne
    | cons x rest =>
      have hx : atomIsEnum x = true := by
        rw [List.all_cons, Bool.and_eq_true] at hall; exact hall.1
      have hxu : enumValUnderlying x = PyAtom.strA (atomStr x) := by
        cases x <;> simp_all [atomIsEnum, enumValUnderlying, atomStr]
      refine to_dict_single k hk (PyVal.listV (x :: rest))
        (PyVal.listV ((x :: rest).map enumValUnderlying))
        (PyVal.listV ((x :: rest).map enumValUnderlying)) ?_ ?_
      · simp [baseValTransform, hx, enumValues_all_enum _ hall]
      · simp [transformValue, isCallV, List.map, hxu, atomIsEnum, atomIsCall]
  · intro x rest hc
    have he : atomIsEnum x = false := by
      cases x <;> simp_all [atomIsCall, atomIsEnum]
    refine to_dict_single k hk (PyVal.listV (x :: rest)) (PyVal.listV (x :: rest))
      (PyVal.listV ((x :: rest).map atomNameOrStr)) ?_ ?_
    · simp [baseValTransform, he]
    · simp [transformValue, isCallV, he, hc]
  · intro x rest hc
    refine to_dict_single k hk (PyVal.tupleV (x :: rest)) (PyVal.tupleV (x :: rest))
      (PyVal.tupleV ((x :: rest).map atomNameOrStr)) rfl ?_
    simp [transformValue, isCallV, hc]

/-- Claim C6 (witness): the amended theorem at an enum list, a callable
list and a callable tuple. -/
theorem sequence_transform_spec_witness :
    ((singleField "lr_schedulers" (PyVal.listV [PyAtom.enumA "linear"])).to_dict =
      .ok (defaultHeadOut ++ [("lr_schedulers", PyVal.listV [PyAtom.strA "linear"])])) ∧
    ((singleField "hooks" (PyVal.listV [PyAtom.callA (some "f") "<function f>"])).to_dict =
      .ok (defaultHeadOut ++ [("hooks", PyVal.listV [PyAtom.strA "f"])])) ∧
    ((singleField "wrap" (PyVal.tupleV [PyAtom.callA (some "Block") "<class Block>"])).to_dict =
      .ok (defaultHeadOut ++ [("wrap", PyVal.tupleV [PyAtom.strA "Block"])])) := by
  refine ⟨?_, ?_, ?_⟩
  · exact (sequence_transform_spec "lr_schedulers" rfl).1 _ (by decide) (by decide)
  · exact (sequence_transform_spec "hooks" rfl).2.1 _ _ (by decide)
  · exact (sequence_transform_spec "wrap" rfl).2.2 _ _ (by decide)

/-- Claim C8: a callable with no discoverable `__name__` never makes
`to_dict` raise: the value falls back to its `str` rendering, at top level
and inside callable-led lists and tuples alike. -/
theorem nameless_callable_fallback (k : String) (hk : strEndsWith k "_token" = false)
    (r : String) :
    ((singleField k (PyVal.callV none r)).to_dict =
      .ok (defaultHeadOut ++ [(k, PyVal.strV r)])) ∧
    (∀ rest : List PyAtom,
      (singleField k (PyVal.listV (PyAtom.callA none r :: rest))).to_dict =
        .ok (defaultHeadOut ++ [(k, PyVal.listV (PyAtom.strA r :: rest.map atomNameOrStr))])) ∧
    (∀ rest : List PyAtom,
      (singleField k (PyVal.tupleV (PyAtom.callA none r :: rest))).to_dict =
        .ok (defaultHeadOut ++ [(k, PyVal.tupleV (PyAtom.strA r :: rest.map atomNameOrStr))])) := by
  refine ⟨?_, ?_, ?_⟩
  · exact to_dict_single k hk (PyVal.callV none r) (PyVal.callV none r) (PyVal.strV r) rfl rfl
  · intro rest
    exact to_dict_single k hk (PyVal.listV (PyAtom.callA none r :: rest))
      (PyVal.listV (PyAtom.callA none r :: rest))
      (PyVal.listV (PyAtom.strA r :: rest.map atomNameOrStr)) rfl
      (by simp [transformValue, isCallV, atomIsEnum, atomIsCall, atomNameOrStr, atomStr])
  · intro rest
    exact to_dict_single k hk (PyVal.tupleV (PyAtom.callA none r :: rest))
      (PyVal.tupleV (PyAtom.callA none r :: rest))
      (PyVal.tupleV (PyAtom.strA r :: rest.map atomNameOrStr)) rfl
      (by simp [transformValue, isCallV, atomIsCall, atomNameOrStr, atomStr])

/-- Claim C8 (witness): the fallback at a concrete nameless callable (a
`functools.partial` object). -/
theorem nameless_callable_fallback_witness :
    (singleField "optim_func" (PyVal.callV none "functools.partial(<function f>)")).to_dict =
      .ok (defaultHeadOut ++ [("optim_func", PyVal.strV "functools.partial(<function f>)")]) :=
  (nameless_callable_fallback "optim_func" rfl "functools.partial(<function f>)").1

/-- Claim C9: `to_dict` does not mutate the configuration record: the
instance state after the call — its init fields and the attributes written
outside `__init__`, including the cached device state — is identical to
the state before, and the produced mapping is a derived copy computed by
the pure pipeline.  (Every assignment in the source body, lines 207-218,
targets the local dict `d`.) -/
theorem to_dict_preserves_instance (r : ArgsRuntime) :
    (AtorchArguments.to_dict_method r).2 = r ∧
    (AtorchArguments.to_dict_method r).2.args = r.args ∧
    (AtorchArguments.to_dict_method r).2.cachedSetupDevices = r.cachedSetupDevices ∧
    (AtorchArguments.to_dict_method r).2.distributed_state = r.distributed_state ∧
    (AtorchArguments.to_dict_method r).2.n_gpu = r.n_gpu ∧
    (AtorchArguments.to_dict_method r).1 = r.args.to_dict :=
  ⟨rfl, rfl, rfl, rfl, rfl, rfl⟩

/-- Claim C5: device resolution is idempotent: a second access returns the
identical cached device handle and changes neither the instance state nor
the process-wide runtime, and over both accesses the blocking
process-group initialization and the device-binding call each happen at
most once. -/
theorem setup_devices_idempotent (env : String → Option String)
    (r : ArgsRuntime) (ts : TorchState) :
    ((setup_devices env (setup_devices env r ts).2.1 (setup_devices env r ts).2.2).1 =
      (setup_devices env r ts).1) ∧
    ((setup_devices env (setup_devices env r ts).2.1 (setup_devices env r ts).2.2).2.1 =
      (setup_devices env r ts).2.1) ∧
    ((setup_devices env (setup_devices env r ts).2.1 (setup_devices env r ts).2.2).2.2 =
      (setup_devices env r ts).2.2) ∧
    ((setup_devices env (setup_devices env r ts).2.1
        (setup_devices env r ts).2.2).2.2.initCalls.length ≤ ts.initCalls.length + 1) ∧
    ((setup_devices env (setup_devices env r ts).2.1
        (setup_devices env r ts).2.2).2.2.setDeviceCalls ≤ ts.setDeviceCalls + 1) := by
  cases hr : r.cachedSetupDevices with
  | some d => simp [setup_devices, hr]
  | none =>
    cases hd : ts.distInitialized <;>
      simp [setup_devices, hr, setupDevicesBody, init_distributed, hd]

/-- Claim C7: during device resolution a process group is initialized if
and only if none is active; when one is initialized, its backend is the
`TORCH_DISTRIBUTED_BACKEND` environment override (default `"nccl"` when
unset) and its timeout is the configured `ddp_timeout` in seconds;
afterwards a process group is active in every case. -/
theorem process_group_init_guard (env : String → Option String)
    (a : AtorchArguments) (ts : TorchState) :
    ((setupDevicesBody env a ts).2.2.initCalls =
      if ts.distInitialized then ts.initCalls
      else ((env "TORCH_DISTRIBUTED_BACKEND").getD "nccl", a.ddp_timeout) :: ts.initCalls) ∧
    (setupDevicesBody env a ts).2.2.distInitialized = true := by
  cases hd : ts.distInitialized <;>
    simp [setupDevicesBody, init_distributed, hd]
